import Mathlib

/-!
Verification of the podperf request-processing core (`app/main.go`).

The embedding models:
* `merge`, `mergeSort`, `parallelMergeSort` — the sorting engine.  Go slices
  `items[:middle]` / `items[middle:]` become `List.take` / `List.drop`; the
  two-pointer merge loop becomes structural recursion on the two lists.
  The goroutine fork-join in `parallelMergeSort` is data-race free (the two
  halves are disjoint and the barrier joins both before merging), so its
  result is the deterministic function modelled here; `spawnCount` counts the
  goroutines it spawns (two per fork).
* `generateRandomNumbers` — the dataset generator.  The standard-library
  `rand.Intn(20000)` is modelled by an arbitrary stream of draws
  `rng : Nat -> Nat`, the i-th call returning `rng i % 20000`, which is the
  guaranteed range contract of `Intn`.
* `sortHandler` — the HTTP handler, modelled as the ordered trace of its
  observable effects (metric increments, gauge sets, span starts/ends,
  dataset generation, the sort, the histogram observation and the HTTP
  response).  Go `int` values never overflow here (the sort only compares),
  so dataset elements are `Int`.
-/

/-- Go: `func merge(left, right []int) []int` — two-pointer merge; the loop
`for i < len(left) && j < len(right)` with `left[i] <= right[j]` taking the
left element first, then the two tail appends. -/
def merge : List Int → List Int → List Int
  | [], right => right
  | left, [] => left
  | l :: ls, r :: rs =>
    if l ≤ r then l :: merge ls (r :: rs) else r :: merge (l :: ls) rs

/-- Go: `func mergeSort(items []int) []int` — `n := len(items)`; return for
`n <= 1`; split at `middle := n / 2` into `items[:middle]`, `items[middle:]`. -/
def mergeSort (items : List Int) : List Int :=
  if h : items.length ≤ 1 then items
  else
    merge (mergeSort (items.take (items.length / 2)))
      (mergeSort (items.drop (items.length / 2)))
termination_by items.length
decreasing_by
  · simp only [List.length_take]
    omega
  · simp only [List.length_drop]
    omega

/-- Go: `func parallelMergeSort(items []int) []int` — return for `n <= 1`;
`threshold := 100000`; sequential `mergeSort` for `n <= threshold`; otherwise
fork two goroutines on `items[:middle]` and `items[middle:]`, join, merge. -/
def parallelMergeSort (items : List Int) : List Int :=
  if items.length ≤ 1 then items
  else if h : items.length ≤ 100000 then mergeSort items
  else
    merge (parallelMergeSort (items.take (items.length / 2)))
      (parallelMergeSort (items.drop (items.length / 2)))
termination_by items.length
decreasing_by
  · simp only [List.length_take]
    omega
  · simp only [List.length_drop]
    omega

/-- Number of goroutines spawned by `parallelMergeSort`: zero on the
`n <= 1` and `n <= threshold` paths, and `2` (the two `go func` calls)
plus the spawns of the two recursive calls otherwise. -/
def spawnCount (items : List Int) : Nat :=
  if items.length ≤ 1 then 0
  else if h : items.length ≤ 100000 then 0
  else
    2 + spawnCount (items.take (items.length / 2))
      + spawnCount (items.drop (items.length / 2))
termination_by items.length
decreasing_by
  · simp only [List.length_take]
    omega
  · simp only [List.length_drop]
    omega

theorem merge_eq_list_merge :
    ∀ l r : List Int, merge l r = List.merge l r (fun a b => decide (a ≤ b)) := by
  intro l
  induction l with
  | nil => intro r; cases r <;> simp [merge, List.merge]
  | cons a as ih =>
    intro r
    induction r with
    | nil => simp [merge, List.merge]
    | cons b bs ihr =>
      by_cases hab : a ≤ b
      · simp [merge, List.merge, hab, ih (b :: bs)]
      · simp [merge, List.merge, hab, ihr]

theorem merge_perm (l r : List Int) : List.Perm (merge l r) (l ++ r) := by
  rw [merge_eq_list_merge]
  exact List.merge_perm_append _

theorem merge_length (l r : List Int) :
    (merge l r).length = l.length + r.length := by
  have := (merge_perm l r).length_eq
  simpa using this

theorem merge_sorted {l r : List Int}
    (hl : List.Sorted (· ≤ ·) l) (hr : List.Sorted (· ≤ ·) r) :
    List.Sorted (· ≤ ·) (merge l r) := by
  rw [merge_eq_list_merge]
  have htrans : ∀ a b c : Int, (fun a b : Int => decide (a ≤ b)) a b = true →
      (fun a b : Int => decide (a ≤ b)) b c = true →
      (fun a b : Int => decide (a ≤ b)) a c = true := by
    intro a b c hab hbc
    simp only [decide_eq_true_eq] at *
    exact le_trans hab hbc
  have htotal : ∀ a b : Int, ((fun a b : Int => decide (a ≤ b)) a b
      || (fun a b : Int => decide (a ≤ b)) b a) = true := by
    intro a b
    simp only [Bool.or_eq_true, decide_eq_true_eq]
    exact le_total a b
  have h := List.sorted_merge htrans htotal l r
  unfold List.Sorted at hl hr ⊢
  have hl' : List.Pairwise (fun a b : Int => decide (a ≤ b) = true) l := by
    simpa using hl
  have hr' : List.Pairwise (fun a b : Int => decide (a ≤ b) = true) r := by
    simpa using hr
  simpa using h hl' hr'

theorem mergeSort_of_short {items : List Int} (h : items.length ≤ 1) :
    mergeSort items = items := by
  unfold mergeSort
  rw [dif_pos h]

theorem mergeSort_split {items : List Int} (h : ¬ items.length ≤ 1) :
    mergeSort items =
      merge (mergeSort (items.take (items.length / 2)))
        (mergeSort (items.drop (items.length / 2))) := by
  conv_lhs => rw [mergeSort]
  rw [dif_neg h]

theorem parallelMergeSort_of_short {items : List Int} (h : items.length ≤ 1) :
    parallelMergeSort items = items := by
  unfold parallelMergeSort
  rw [if_pos h]

theorem parallelMergeSort_split {items : List Int} (h : ¬ items.length ≤ 100000) :
    parallelMergeSort items =
      merge (parallelMergeSort (items.take (items.length / 2)))
        (parallelMergeSort (items.drop (items.length / 2))) := by
  conv_lhs => rw [parallelMergeSort]
  rw [if_neg (by omega : ¬ items.length ≤ 1), dif_neg h]

theorem parallelMergeSort_of_le_threshold {items : List Int}
    (h : items.length ≤ 100000) : parallelMergeSort items = mergeSort items := by
  unfold parallelMergeSort
  by_cases h1 : items.length ≤ 1
  · rw [if_pos h1, mergeSort_of_short h1]
  · rw [if_neg h1, dif_pos h]

theorem spawnCount_of_le_threshold {items : List Int}
    (h : items.length ≤ 100000) : spawnCount items = 0 := by
  unfold spawnCount
  by_cases h1 : items.length ≤ 1
  · rw [if_pos h1]
  · rw [if_neg h1, dif_pos h]

theorem spawnCount_split {items : List Int} (h : ¬ items.length ≤ 100000) :
    spawnCount items =
      2 + spawnCount (items.take (items.length / 2))
        + spawnCount (items.drop (items.length / 2)) := by
  conv_lhs => rw [spawnCount]
  rw [if_neg (by omega : ¬ items.length ≤ 1), dif_neg h]

theorem mergeSort_perm (l : List Int) : List.Perm (mergeSort l) l := by
  have H : ∀ n (l : List Int), l.length = n → List.Perm (mergeSort l) l := by
    intro n
    induction n using Nat.strong_induction_on with
    | _ n ih =>
    intro l hn
    subst hn
    by_cases h : l.length ≤ 1
    · rw [mergeSort_of_short h]
    · rw [mergeSort_split h]
      have ht : (l.take (l.length / 2)).length < l.length := by
        simp only [List.length_take]
        omega
      have hd : (l.drop (l.length / 2)).length < l.length := by
        simp only [List.length_drop]
        omega
      have pt := ih _ ht _ rfl
      have pd := ih _ hd _ rfl
      have h3 := (merge_perm (mergeSort (l.take (l.length / 2)))
        (mergeSort (l.drop (l.length / 2)))).trans (pt.append pd)
      rw [List.take_append_drop] at h3
      exact h3
  exact H l.length l rfl

theorem mergeSort_sorted (l : List Int) : List.Sorted (· ≤ ·) (mergeSort l) := by
  have H : ∀ n (l : List Int), l.length = n → List.Sorted (· ≤ ·) (mergeSort l) := by
    intro n
    induction n using Nat.strong_induction_on with
    | _ n ih =>
    intro l hn
    subst hn
    by_cases h : l.length ≤ 1
    · rw [mergeSort_of_short h]
      match l with
      | [] => simp
      | [a] => simp
      | a :: b :: t => simp at h
    · rw [mergeSort_split h]
      have ht : (l.take (l.length / 2)).length < l.length := by
        simp only [List.length_take]
        omega
      have hd : (l.drop (l.length / 2)).length < l.length := by
        simp only [List.length_drop]
        omega
      exact merge_sorted (ih _ ht _ rfl) (ih _ hd _ rfl)
  exact H l.length l rfl

theorem parallelMergeSort_eq_mergeSort (l : List Int) :
    parallelMergeSort l = mergeSort l := by
  have H : ∀ n (l : List Int), l.length = n → parallelMergeSort l = mergeSort l := by
    intro n
    induction n using Nat.strong_induction_on with
    | _ n ih =>
    intro l hn
    subst hn
    by_cases h : l.length ≤ 100000
    · exact parallelMergeSort_of_le_threshold h
    · rw [parallelMergeSort_split h, mergeSort_split (by omega)]
      have ht : (l.take (l.length / 2)).length < l.length := by
        simp only [List.length_take]
        omega
      have hd : (l.drop (l.length / 2)).length < l.length := by
        simp only [List.length_drop]
        omega
      rw [ih _ ht _ rfl, ih _ hd _ rfl]
  exact H l.length l rfl

theorem merge_eq_append :
    ∀ l r : List Int, (∀ a ∈ l, ∀ b ∈ r, a ≤ b) → merge l r = l ++ r := by
  intro l
  induction l with
  | nil => intro r _; cases r <;> simp [merge]
  | cons a as ih =>
    intro r hcross
    cases r with
    | nil => simp [merge]
    | cons b bs =>
      have hab : a ≤ b := hcross a (by simp) b (by simp)
      simp only [merge, if_pos hab, List.cons_append]
      rw [ih (b :: bs) (fun x hx y hy => hcross x (by simp [hx]) y hy)]

theorem mergeSort_of_sorted {l : List Int} (hl : List.Sorted (· ≤ ·) l) :
    mergeSort l = l := by
  have H : ∀ n (l : List Int), l.length = n → List.Sorted (· ≤ ·) l →
      mergeSort l = l := by
    intro n
    induction n using Nat.strong_induction_on with
    | _ n ih =>
    intro l hn hl
    subst hn
    by_cases h : l.length ≤ 1
    · exact mergeSort_of_short h
    · rw [mergeSort_split h]
      have ht : (l.take (l.length / 2)).length < l.length := by
        simp only [List.length_take]
        omega
      have hd : (l.drop (l.length / 2)).length < l.length := by
        simp only [List.length_drop]
        omega
      have hst : List.Sorted (· ≤ ·) (l.take (l.length / 2)) :=
        List.Pairwise.sublist (List.take_sublist _ _) hl
      have hsd : List.Sorted (· ≤ ·) (l.drop (l.length / 2)) :=
        List.Pairwise.sublist (List.drop_sublist _ _) hl
      rw [ih _ ht _ rfl hst, ih _ hd _ rfl hsd]
      have hsplit : List.Sorted (· ≤ ·)
          (l.take (l.length / 2) ++ l.drop (l.length / 2)) := by
        rw [List.take_append_drop]
        exact hl
      have hcross := (List.pairwise_append.mp hsplit).2.2
      rw [merge_eq_append _ _ hcross, List.take_append_drop]
  exact H l.length l rfl hl

theorem spawnCount_replicate_small {n : Nat} (a : Int) (h : n ≤ 100000) :
    spawnCount (List.replicate n a) = 0 :=
  spawnCount_of_le_threshold (by simpa using h)

theorem spawnCount_replicate_125000 (a : Int) :
    spawnCount (List.replicate 125000 a) = 2 := by
  have hlen : (List.replicate 125000 a).length = 125000 :=
    List.length_replicate _ _
  rw [spawnCount_split (by omega), hlen]
  rw [List.take_replicate, List.drop_replicate]
  have h1 : (125000 : Nat) / 2 ⊓ 125000 = 62500 := by
    rw [inf_eq_min]
    omega
  have h2 : (125000 : Nat) - 125000 / 2 = 62500 := by omega
  rw [h1, h2]
  rw [spawnCount_of_le_threshold (by rw [List.length_replicate]; omega)]

theorem spawnCount_replicate_250000 (a : Int) :
    spawnCount (List.replicate 250000 a) = 6 := by
  have hlen : (List.replicate 250000 a).length = 250000 :=
    List.length_replicate _ _
  rw [spawnCount_split (by omega), hlen]
  rw [List.take_replicate, List.drop_replicate]
  have h1 : (250000 : Nat) / 2 ⊓ 250000 = 125000 := by
    rw [inf_eq_min]
    omega
  have h2 : (250000 : Nat) - 250000 / 2 = 125000 := by omega
  rw [h1, h2, spawnCount_replicate_125000]

/-- Go: `func generateRandomNumbers(size int) []int` — allocates `size` slots
and fills `numbers[i] = rand.Intn(20000)`.  The shared random source is
modelled as the stream `rng` of raw draws; `rand.Intn(20000)` returns a value
in `[0, 20000)`, modelled by reducing the i-th draw modulo the bound. -/
def generateRandomNumbers (size : Nat) (rng : Nat → Nat) : List Int :=
  (List.range size).map fun i => ((rng i % 20000 : Nat) : Int)

/-- HTTP method of the inbound request.  The handler only distinguishes
`http.MethodGet` from everything else (`r.Method != http.MethodGet`). -/
inductive Method where
  | GET : Method
  | other : String → Method
deriving DecidableEq

/-- Go `Response` struct: `requestID` (the decimal rendering of the int64
nanosecond timestamp — `strconv.ParseInt` recovers the number exactly, so it
is kept as the number), `status`, and the `omitempty` duration. -/
structure Response where
  requestID : Nat
  status : String
  duration : Option Nat
deriving DecidableEq

/-- One observable effect of `sortHandler`, in program order: counter
increments, the array-size gauge set, span starts/ends (only when the tracer
is initialized), dataset generation, the sort, the histogram observation, and
the HTTP response write. -/
inductive Event where
  | incSortRequests : Event
  | incErrors : Event
  | setArraySize : Nat → Event
  | spanStart : String → Event
  | spanEnd : String → Event
  | generate : List Int → Event
  | sortRun : List Int → List Int → Event
  | observeDuration : Nat → Event
  | respond : Nat → Response → Event
deriving DecidableEq

/-- Go: `func sortHandler(w http.ResponseWriter, r *http.Request)`, as the
ordered trace of its observable effects.  `now` is `time.Now().UnixNano()`
at arrival (the request id is derived from it), `rng` the random source, and
`elapsed` the measured sort wall time in `duration.Seconds()`.  Control flow
follows the source: root span, `sortRequests.Inc()`, the 405 branch, the
even-id 400 branch (`errorCounter.Inc()` after the error body in both), then
gauge set, generation child span, sort child span,
`sortDuration.Observe`, and the 200 response. -/
def sortHandler (tracerOn : Bool) (method : Method) (now : Nat)
    (rng : Nat → Nat) (elapsed : Nat) : List Event :=
  (if tracerOn then [Event.spanStart "sort-handler"] else []) ++
  [Event.incSortRequests] ++
  (if method ≠ Method.GET then
    [Event.respond 405 ⟨now, "error", none⟩, Event.incErrors] ++
      (if tracerOn then [Event.spanEnd "sort-handler"] else [])
  else if now % 2 = 0 then
    [Event.respond 400 ⟨now, "error", none⟩, Event.incErrors] ++
      (if tracerOn then [Event.spanEnd "sort-handler"] else [])
  else
    [Event.setArraySize 20000] ++
    (if tracerOn then [Event.spanStart "generate-random-numbers"] else []) ++
    [Event.generate (generateRandomNumbers 20000 rng)] ++
    (if tracerOn then [Event.spanEnd "generate-random-numbers"] else []) ++
    (if tracerOn then [Event.spanStart "parallel-merge-sort"] else []) ++
    [Event.sortRun (generateRandomNumbers 20000 rng)
      (parallelMergeSort (generateRandomNumbers 20000 rng))] ++
    (if tracerOn then [Event.spanEnd "parallel-merge-sort"] else []) ++
    [Event.observeDuration elapsed,
     Event.respond 200 ⟨now, "success", some elapsed⟩] ++
    (if tracerOn then [Event.spanEnd "sort-handler"] else []))

/-- Number of events in a trace satisfying a predicate. -/
def countEvents (p : Event → Bool) (tr : List Event) : Nat :=
  (tr.filter p).length

/-- Predicate for `sortRequests.Inc()` events. -/
def isIncSortRequests : Event → Bool
  | Event.incSortRequests => true
  | _ => false

/-- Predicate for `errorCounter.Inc()` events. -/
def isIncErrors : Event → Bool
  | Event.incErrors => true
  | _ => false

/-- Predicate for `sortDuration.Observe` events. -/
def isObserveDuration : Event → Bool
  | Event.observeDuration _ => true
  | _ => false

/-- Predicate for dataset-generation events. -/
def isGenerate : Event → Bool
  | Event.generate _ => true
  | _ => false

/-- Predicate for sort-execution events. -/
def isSortRun : Event → Bool
  | Event.sortRun _ _ => true
  | _ => false

/-- Predicate for `arraySize.Set` events. -/
def isSetArraySize : Event → Bool
  | Event.setArraySize _ => true
  | _ => false

/-- Predicate for span start/end events with the given span name. -/
def isSpanOf (name : String) : Event → Bool
  | Event.spanStart n => n == name
  | Event.spanEnd n => n == name
  | _ => false

/-- The HTTP responses written in a trace, as (status code, body) pairs. -/
def responses (tr : List Event) : List (Nat × Response) :=
  tr.filterMap fun e =>
    match e with
    | Event.respond c b => some (c, b)
    | _ => none

/-- A trace is accepted when it writes a 200 response. -/
def accepted (tr : List Event) : Bool :=
  tr.any fun e =>
    match e with
    | Event.respond 200 _ => true
    | _ => false

/-- C1: for every list of integers D, both `mergeSort` and
`parallelMergeSort` return a non-decreasing list that is a permutation of D
(the multiset of values is preserved). -/
theorem sort_is_sorted_permutation :
    ∀ D : List Int,
    (List.Sorted (· ≤ ·) (mergeSort D) ∧ List.Perm (mergeSort D) D) ∧
    (List.Sorted (· ≤ ·) (parallelMergeSort D) ∧
      List.Perm (parallelMergeSort D) D) := by
  intro D
  refine ⟨⟨mergeSort_sorted D, mergeSort_perm D⟩, ?_, ?_⟩ <;>
    rw [parallelMergeSort_eq_mergeSort]
  · exact mergeSort_sorted D
  · exact mergeSort_perm D

/-- C2: the forced-sequential sort and the parallel sort produce identical
output on every input, regardless of how many levels fork versus fall back
to sequential execution. -/
theorem parallel_matches_sequential :
    ∀ D : List Int, parallelMergeSort D = mergeSort D := fun D =>
  parallelMergeSort_eq_mergeSort D

/-- C3 (amended): for inputs of size at most the threshold 100000,
`parallelMergeSort` spawns no goroutine and returns the sequential
`mergeSort` result; above the threshold it splits at the midpoint `n / 2`
into two disjoint halves, sorts them concurrently (two spawns plus the
recursive spawns) and merges.  For n = 250000, however, the two subtasks of
size 125000 each exceed the threshold and fork again (two fan-out levels,
six spawned tasks in total), rather than falling back to sequential sort. -/
theorem parallelMergeSort_threshold_and_fanout :
    ∀ items : List Int,
    (items.length ≤ 100000 →
      spawnCount items = 0 ∧ parallelMergeSort items = mergeSort items) ∧
    (¬ items.length ≤ 100000 →
      parallelMergeSort items =
        merge (parallelMergeSort (items.take (items.length / 2)))
          (parallelMergeSort (items.drop (items.length / 2))) ∧
      items.take (items.length / 2) ++ items.drop (items.length / 2)
        = items ∧
      spawnCount items =
        2 + spawnCount (items.take (items.length / 2))
          + spawnCount (items.drop (items.length / 2))) ∧
    (spawnCount (List.replicate 250000 (0 : Int)) = 6 ∧
      spawnCount (List.replicate 125000 (0 : Int)) = 2) := by
  intro items
  refine ⟨fun h => ⟨spawnCount_of_le_threshold h,
      parallelMergeSort_of_le_threshold h⟩,
    fun h => ⟨parallelMergeSort_split h, List.take_append_drop _ _,
      spawnCount_split h⟩,
    spawnCount_replicate_250000 0, spawnCount_replicate_125000 0⟩

/-- C3 counterexample: the claimed "exactly one fan-out level (two
concurrent subtasks ..., each of which falls back to sequential sort)" fails
at n = 250000: more than two goroutines are spawned, and the size-125000
subtask itself forks instead of running sequentially. -/
theorem fanout_250000_counterexample :
    spawnCount (List.replicate 250000 (0 : Int)) ≠ 2 ∧
    spawnCount (List.replicate 125000 (0 : Int)) ≠ 0 := by
  constructor
  · rw [spawnCount_replicate_250000]
    omega
  · rw [spawnCount_replicate_125000]
    omega

/-- C3 witness: the threshold branch at the concrete input [5, 3, 4, 1, 2]. -/
theorem parallelMergeSort_threshold_and_fanout_witness :
    spawnCount [5, 3, 4, 1, 2] = 0 ∧
    parallelMergeSort [5, 3, 4, 1, 2] = mergeSort [5, 3, 4, 1, 2] :=
  (parallelMergeSort_threshold_and_fanout [5, 3, 4, 1, 2]).1 (by decide)

/-- C4: a non-GET request to /sort yields 405 with an error body carrying
the request id; a GET with an even timestamp-derived id yields 400 with an
error body; a GET with an odd id yields 200 with a success body carrying the
duration; and every 4xx rejection increments the error counter exactly
once. -/
theorem sortHandler_response_contract :
    ∀ (tracerOn : Bool) (method : Method) (now : Nat) (rng : Nat → Nat)
      (elapsed : Nat),
    (method ≠ Method.GET →
      responses (sortHandler tracerOn method now rng elapsed)
        = [(405, ⟨now, "error", none⟩)] ∧
      countEvents isIncErrors (sortHandler tracerOn method now rng elapsed)
        = 1) ∧
    (method = Method.GET → now % 2 = 0 →
      responses (sortHandler tracerOn method now rng elapsed)
        = [(400, ⟨now, "error", none⟩)] ∧
      countEvents isIncErrors (sortHandler tracerOn method now rng elapsed)
        = 1) ∧
    (method = Method.GET → ¬ now % 2 = 0 →
      responses (sortHandler tracerOn method now rng elapsed)
        = [(200, ⟨now, "success", some elapsed⟩)] ∧
      countEvents isIncErrors (sortHandler tracerOn method now rng elapsed)
        = 0) := by
  intro tracerOn method now rng elapsed
  refine ⟨?_, ?_, ?_⟩ <;> intro h1 <;> try intro h2
  all_goals cases method <;> cases tracerOn <;>
    simp_all [sortHandler, countEvents, isIncErrors, responses]

/-- C4 witness: a POST request at arrival time 3 is answered 405 with an
error body and one error-counter increment. -/
theorem sortHandler_response_contract_witness :
    responses (sortHandler true (Method.other "POST") 3 (fun _ => 0) 7)
      = [(405, ⟨3, "error", none⟩)] ∧
    countEvents isIncErrors (sortHandler true (Method.other "POST") 3
      (fun _ => 0) 7) = 1 :=
  (sortHandler_response_contract true (Method.other "POST") 3
    (fun _ => 0) 7).1 (by simp)

/-- C5: every request to /sort increments the request counter exactly once,
whether it is rejected with 405 or 400 or completes with 200. -/
theorem sortHandler_increments_requests_once :
    ∀ (tracerOn : Bool) (method : Method) (now : Nat) (rng : Nat → Nat)
      (elapsed : Nat),
    countEvents isIncSortRequests (sortHandler tracerOn method now rng elapsed)
      = 1 := by
  intro tracerOn method now rng elapsed
  cases method <;> by_cases hp : now % 2 = 0 <;> cases tracerOn <;>
    simp [sortHandler, countEvents, isIncSortRequests, hp]

/-- C6: the duration histogram is observed exactly once on a request that
reaches the sorted state (an odd-id GET), and never on a rejected request. -/
theorem sortHandler_observes_duration_iff_sorted :
    ∀ (tracerOn : Bool) (method : Method) (now : Nat) (rng : Nat → Nat)
      (elapsed : Nat),
    countEvents isObserveDuration (sortHandler tracerOn method now rng elapsed)
      = if method = Method.GET ∧ ¬ now % 2 = 0 then 1 else 0 := by
  intro tracerOn method now rng elapsed
  cases method <;> by_cases hp : now % 2 = 0 <;> cases tracerOn <;>
    simp [sortHandler, countEvents, isObserveDuration, hp]

/-- C7: a rejected request (non-GET or even id) performs no work: no dataset
generation, no sort, no array-size gauge set, no generation or sort span, no
duration observation — the trace is exactly the request counter increment,
the error response and the error counter increment (inside the root span
when tracing is on). -/
theorem sortHandler_rejection_short_circuits :
    ∀ (tracerOn : Bool) (method : Method) (now : Nat) (rng : Nat → Nat)
      (elapsed : Nat),
    (method ≠ Method.GET ∨ now % 2 = 0) →
    countEvents isGenerate (sortHandler tracerOn method now rng elapsed) = 0 ∧
    countEvents isSortRun (sortHandler tracerOn method now rng elapsed) = 0 ∧
    countEvents isSetArraySize (sortHandler tracerOn method now rng elapsed)
      = 0 ∧
    countEvents (isSpanOf "generate-random-numbers")
      (sortHandler tracerOn method now rng elapsed) = 0 ∧
    countEvents (isSpanOf "parallel-merge-sort")
      (sortHandler tracerOn method now rng elapsed) = 0 ∧
    countEvents isObserveDuration (sortHandler tracerOn method now rng elapsed)
      = 0 ∧
    ∃ code : Nat, sortHandler tracerOn method now rng elapsed =
      (if tracerOn then [Event.spanStart "sort-handler"] else []) ++
      [Event.incSortRequests, Event.respond code ⟨now, "error", none⟩,
        Event.incErrors] ++
      (if tracerOn then [Event.spanEnd "sort-handler"] else []) := by
  intro tracerOn method now rng elapsed h
  rcases h with h | h
  · cases method <;> cases tracerOn <;>
      simp_all [sortHandler, countEvents, isGenerate, isSortRun,
        isSetArraySize, isSpanOf, isObserveDuration]
  · cases method <;> cases tracerOn <;>
      simp_all [sortHandler, countEvents, isGenerate, isSortRun,
        isSetArraySize, isSpanOf, isObserveDuration]

/-- C7 witness: an even-id GET request at arrival time 4 with tracing on. -/
theorem sortHandler_rejection_short_circuits_witness :
    countEvents isGenerate (sortHandler true Method.GET 4 (fun _ => 0) 7)
      = 0 ∧
    countEvents isSortRun (sortHandler true Method.GET 4 (fun _ => 0) 7)
      = 0 ∧
    countEvents isSetArraySize (sortHandler true Method.GET 4 (fun _ => 0) 7)
      = 0 ∧
    countEvents (isSpanOf "generate-random-numbers")
      (sortHandler true Method.GET 4 (fun _ => 0) 7) = 0 ∧
    countEvents (isSpanOf "parallel-merge-sort")
      (sortHandler true Method.GET 4 (fun _ => 0) 7) = 0 ∧
    countEvents isObserveDuration (sortHandler true Method.GET 4
      (fun _ => 0) 7) = 0 ∧
    ∃ code : Nat, sortHandler true Method.GET 4 (fun _ => 0) 7 =
      [Event.spanStart "sort-handler"] ++
      [Event.incSortRequests, Event.respond code ⟨4, "error", none⟩,
        Event.incErrors] ++
      [Event.spanEnd "sort-handler"] :=
  sortHandler_rejection_short_circuits true Method.GET 4 (fun _ => 0) 7
    (Or.inr rfl)

/-- C8 counterexample: admission is not determined by id parity alone — two
requests with the same odd id differ in acceptance because one is a GET and
the other a POST. -/
theorem admission_depends_on_method :
    accepted (sortHandler false Method.GET 1 (fun _ => 0) 0) = true ∧
    accepted (sortHandler false (Method.other "POST") 1 (fun _ => 0) 0)
      = false := by
  constructor <;> rfl

/-- C8 (amended): for GET requests, admission is determined solely by the
parity of the timestamp-derived id (accepted exactly when the id is odd),
independently of the tracer state, the random source and the measured
duration; non-GET requests are rejected regardless of parity. -/
theorem admission_parity_for_get :
    ∀ (tracerOn tracerOn' : Bool) (now : Nat) (rng rng' : Nat → Nat)
      (elapsed elapsed' : Nat) (m : String),
    (accepted (sortHandler tracerOn Method.GET now rng elapsed) = true
      ↔ now % 2 = 1) ∧
    accepted (sortHandler tracerOn' (Method.other m) now rng' elapsed')
      = false := by
  intro tracerOn tracerOn' now rng rng' elapsed elapsed' m
  constructor
  · by_cases hp : now % 2 = 0 <;> cases tracerOn <;>
      simp [sortHandler, accepted, hp] <;> omega
  · cases tracerOn' <;> simp [sortHandler, accepted]

/-- C9: the generator returns exactly `size` integers, each in the interval
[0, 20000) (the bound instantiated in the code), for every size and every
state of the random source. -/
theorem generateRandomNumbers_size_and_range :
    ∀ (size : Nat) (rng : Nat → Nat),
    (generateRandomNumbers size rng).length = size ∧
    ∀ x ∈ generateRandomNumbers size rng, 0 ≤ x ∧ x < 20000 := by
  intro size rng
  constructor
  · simp [generateRandomNumbers]
  · intro x hx
    simp only [generateRandomNumbers, List.mem_map, List.mem_range] at hx
    obtain ⟨i, _, rfl⟩ := hx
    refine ⟨Int.natCast_nonneg _, ?_⟩
    exact_mod_cast Nat.mod_lt (rng i) (by norm_num)

/-- C9 witness: at size 3 with the identity draw stream, the dataset has
length 3 and its element 1 is within range. -/
theorem generateRandomNumbers_size_and_range_witness :
    (generateRandomNumbers 3 (fun i => i)).length = 3 ∧
    (0 ≤ (1 : Int) ∧ (1 : Int) < 20000) :=
  ⟨(generateRandomNumbers_size_and_range 3 (fun i => i)).1,
    (generateRandomNumbers_size_and_range 3 (fun i => i)).2 1 (by decide)⟩

/-- C10: sorting is idempotent — applying `mergeSort` to an already sorted
list returns it unchanged, so `mergeSort (mergeSort D) = mergeSort D`. -/
theorem mergeSort_idempotent :
    ∀ D : List Int, mergeSort (mergeSort D) = mergeSort D := fun D =>
  mergeSort_of_sorted (mergeSort_sorted D)
